import Mathlib

/-!
Verification development for `src/interventions.py` of the
causal-fairness repository.

The Python class `Interventions` is embedded shallowly:

* `Tensor` models a 2-D torch tensor `(rows, cols)` with rational entries;
  the random draws consumed by `torch.randn` / `torch.rand` /
  `torch.bernoulli` are supplied through explicit noise streams, so every
  definition stays executable and deterministic.
* The external collaborators (`SEM`, the intervened graph, and
  `combine_variables` from `utils`) are modelled as abstract records of
  functions, exactly as the repository treats them: opaque services whose
  internals this file does not re-derive.
* Python dictionaries of the intervention spec are association lists in
  declaration order; `base_sample` is a total map from vertices to tensors
  (its keys are the graph vertices, per the class docstring).
* Fallible Python code is embedded in `Except PyErr`: `assert` failures,
  the `AttributeError` caused by the unassigned `self.verbose`, the
  `UnboundLocalError` in `_get_parameter_indices`, and the `TypeError` of
  an arity-mismatched known-function call.
* `print` statements are I/O and are elided from the data-level
  definitions; the fact that the *guards* of those prints read the missing
  attribute `self.verbose` is modelled faithfully by the `Run` variants of
  the methods, which consult the `verbose : Option Int` field of the
  instance state (`none` = attribute never assigned).
-/

namespace CausalFairness

/-- Python exception kinds that the embedded code can raise. -/
inductive PyErr where
  | attributeError
  | assertionError
  | unboundLocalError
  | typeError
deriving DecidableEq

/-- A 2-D torch tensor: `rows` is `len(t)` (= `t.size(0)`), `cols` is
`t.size(-1)`, and `entry i j` the value at position `(i, j)`. -/
structure Tensor where
  rows : Nat
  cols : Nat
  entry : Nat → Nat → ℚ

/-- A sample as produced by `sem.sample`: a dict whose keys are the graph
vertices and whose values are tensors; modelled as a total map. -/
abbrev Sample (V : Type) : Type := V → Tensor

/-- The keys of the class attribute `Interventions.known_functions`. -/
inductive FuncName where
  | randn
  | const
  | rand
  | range
  | bernoulli
deriving DecidableEq

/-- `torch.linspace(a, b, steps = n)` entry `i` (exact arithmetic). -/
def linspace (a b : ℚ) (n : Nat) (i : Nat) : ℚ :=
  if n ≤ 1 then a else a + (b - a) * i / (n - 1)

/-- The class attribute `known_functions`: each lambda receives `self`
(here: `n = self.n_samples`) and the scalar arguments of one parameter
tuple, and returns an `(n, 1)` tensor.  The stream `ω` supplies the random
draws of the underlying `torch` sampler (`randn`: standard-normal draws,
`rand`: uniform draws on `[0, 1)`, `bernoulli`: the uniform draw that is
thresholded at `p`).  A tuple of the wrong arity is a Python `TypeError`
at the call site. -/
def knownFunctions (n : Nat) (ω : Nat → ℚ) : FuncName → List ℚ → Except PyErr Tensor
  | .randn, [mean, v] => .ok ⟨n, 1, fun i _ => ω i * v + mean⟩
  | .const, [c] => .ok ⟨n, 1, fun _ _ => 1 * c⟩
  | .rand, [s, e] => .ok ⟨n, 1, fun i _ => ω i * (s - e) + e⟩
  | .range, [a, b] => .ok ⟨n, 1, fun i _ => linspace a b n i⟩
  | .bernoulli, [p] => .ok ⟨n, 1, fun i _ => if ω i < p then 1 else 0⟩
  | _, _ => .error .typeError

/-- The `intervention_spec` dictionary: for each proxy (in dict order) the
`functions` dictionary, mapping a known-function name to its list of
parameter tuples.  (The docstring requires the values to be lists of
tuples, so the `isinstance(params, list)` fallback branch of the Python
code is never taken in this typed embedding.) -/
abbrev InterventionSpec (V : Type) : Type := List (V × List (FuncName × List (List ℚ)))

/-- Inner loop of `_set_n_interventions`: `n_proxy`, the number of
parameter tuples of one proxy. -/
def nProxyCount (funcs : List (FuncName × List (List ℚ))) : Nat :=
  funcs.foldl (fun a fp => a + fp.2.length) 0

/-- `_set_n_interventions`: `self.n_interventions` starts at 1 and is
multiplied by `n_proxy` for every proxy. -/
def setNInterventions {V : Type} (spec : InterventionSpec V) : Nat :=
  spec.foldl (fun acc pf => acc * nProxyCount pf.2) 1

/-- Innermost loop of `_create_intervened_samples`: for each parameter
tuple of one `(proxy, func)` pair, deep-copy the base sample and replace
the proxy's value by the freshly generated tensor.  `ω j` is the noise
stream of the `j`-th tuple's call. -/
def samplesForTuples {V : Type} [DecidableEq V] (base : Sample V) (n : Nat) (proxy : V)
    (f : FuncName) (ω : Nat → Nat → ℚ) : Nat → List (List ℚ) → Except PyErr (List (Sample V))
  | _, [] => .ok []
  | j, ps :: rest =>
    match knownFunctions n (ω j) f ps with
    | .error e => .error e
    | .ok t =>
      match samplesForTuples base n proxy f ω (j + 1) rest with
      | .error e => .error e
      | .ok tail => .ok (Function.update base proxy t :: tail)

/-- Middle loop of `_create_intervened_samples`: over the `functions`
dictionary of one proxy. -/
def samplesForProxy {V : Type} [DecidableEq V] (base : Sample V) (n : Nat) (proxy : V)
    (ω : FuncName → Nat → Nat → ℚ) : List (FuncName × List (List ℚ)) → Except PyErr (List (Sample V))
  | [] => .ok []
  | (f, pss) :: rest =>
    match samplesForTuples base n proxy f (ω f) 0 pss with
    | .error e => .error e
    | .ok s1 =>
      match samplesForProxy base n proxy ω rest with
      | .error e => .error e
      | .ok s2 => .ok (s1 ++ s2)

/-- The sample-building loops of `_create_intervened_samples` (lines
117-127): one appended sample per proxy, per function, per parameter
tuple, in dict order. -/
def createIntervenedSamples {V : Type} [DecidableEq V] (base : Sample V) (n : Nat)
    (ω : V → FuncName → Nat → Nat → ℚ) : InterventionSpec V → Except PyErr (List (Sample V))
  | [] => .ok []
  | (proxy, funcs) :: rest =>
    match samplesForProxy base n proxy (ω proxy) funcs with
    | .error e => .error e
    | .ok s1 =>
      match createIntervenedSamples base n ω rest with
      | .error e => .error e
      | .ok s2 => .ok (s1 ++ s2)

/-- The intervened graph returned by `sem.get_intervened_graph`, as the
abstract interface used by the class: roots, a topological sort, and the
parent lists. -/
structure Graph (V : Type) where
  roots : List V
  topologicalSort : List V
  parents : V → List V

/-- The `SEM` collaborator, as the abstract interface used by the class.
`predictFromSample s update` is `sem.predict_from_sample(s, update=update,
mutate=True)`: it returns the mutated sample. -/
structure SEM (V : Type) where
  leafs : List V
  descendants : V → List V
  getIntervenedGraph : List V → Graph V
  predictFromSample : Sample V → List V → Sample V

/-- The instance attributes of an `Interventions` object.  `verbose` is
`Option Int`: `none` means the attribute was never assigned (reading it
raises `AttributeError`). -/
structure Interventions (V : Type) where
  base_sample : Sample V
  n_samples : Nat
  interventions : InterventionSpec V
  proxies : List V
  sem : SEM V
  intervened_graph : Graph V
  target : V
  n_interventions : Nat
  training_samples : List (Sample V)
  verbose : Option Int

/-- The attribute assignments of `__init__` (lines 76-84).  `firstKey` is
the first key of the `base_sample` dict in iteration order, from which
`n_samples = len(next(iter(base_sample.values())))` is computed.  The
`verbose` parameter is received but `__init__` never assigns
`self.verbose`, so the field is `none` regardless of `verbose`. -/
def initState {V : Type} (sem : SEM V) (base_sample : Sample V) (firstKey : V)
    (spec : InterventionSpec V) (target : V) (verbose : Int) : Interventions V :=
  { base_sample := base_sample
    n_samples := (base_sample firstKey).rows
    interventions := spec
    proxies := spec.map Prod.fst
    sem := sem
    intervened_graph := sem.getIntervenedGraph (spec.map Prod.fst)
    target := target
    n_interventions := setNInterventions spec
    training_samples := []
    verbose := none }

/-- A Python `assert cond`: `AssertionError` when the condition fails. -/
def assertE (p : Prop) [Decidable p] : Except PyErr Unit :=
  if p then .ok () else .error .assertionError

/-- The per-proxy assertion loop of `_check_input` (lines 95-98). -/
def checkProxiesE {V : Type} [DecidableEq V] (sem : SEM V) (target : V) :
    List V → Except PyErr Unit
  | [] => .ok ()
  | p :: ps =>
    match assertE (target ∈ sem.descendants p) with
    | .error e => .error e
    | .ok _ => checkProxiesE sem target ps

/-- `_check_input` (lines 87-98): the three assertion checks, in order. -/
def checkInputE {V : Type} [DecidableEq V] (st : Interventions V) : Except PyErr Unit :=
  match assertE (st.target ∈ st.sem.leafs) with
  | .error e => .error e
  | .ok _ =>
    match assertE ((st.base_sample st.target).cols = 1) with
    | .error e => .error e
    | .ok _ => checkProxiesE st.sem st.target st.proxies

/-- `Interventions.__init__`: the attribute assignments followed by
`_check_input`; construction succeeds exactly when no assertion fires. -/
def initE {V : Type} [DecidableEq V] (sem : SEM V) (base_sample : Sample V) (firstKey : V)
    (spec : InterventionSpec V) (target : V) (verbose : Int) :
    Except PyErr (Interventions V) :=
  match checkInputE (initState sem base_sample firstKey spec target verbose) with
  | .error e => .error e
  | .ok _ => .ok (initState sem base_sample firstKey spec target verbose)

/-- `_create_intervened_samples` as a state transformer: line 113 resets
`self.training_samples` to `[]`, then line 114 reads `self.verbose`
(raising `AttributeError` when the attribute was never assigned, before
any sample is generated); otherwise the loops fill `training_samples`. -/
def createIntervenedSamplesRun {V : Type} [DecidableEq V] (ω : V → FuncName → Nat → Nat → ℚ)
    (st : Interventions V) : Except PyErr Unit × Interventions V :=
  let st1 := { st with training_samples := [] }
  match st1.verbose with
  | none => (.error .attributeError, st1)
  | some _ =>
    match createIntervenedSamples st1.base_sample st1.n_samples ω st1.interventions with
    | .error e => (.error e, st1)
    | .ok l => (.ok (), { st1 with training_samples := l })

/-- The `update` list of `_update` (lines 132-134): the topological sort
of the intervened graph minus its roots and the target. -/
def updateList {V : Type} [DecidableEq V] (g : Graph V) (target : V) : List V :=
  let exclude := g.roots ++ [target]
  g.topologicalSort.filter (fun v => decide (v ∉ exclude))

/-- `_update` (lines 130-140): reads `self.verbose` (line 135), then calls
`sem.predict_from_sample(sample, update=update, mutate=True)` on every
training sample. -/
def updateRun {V : Type} [DecidableEq V] (st : Interventions V) :
    Except PyErr Unit × Interventions V :=
  match st.verbose with
  | none => (.error .attributeError, st)
  | some _ =>
    let upd := st.training_samples.map
      (fun s => st.sem.predictFromSample s (updateList st.intervened_graph st.target))
    (.ok (), { st with training_samples := upd })

/-- `_set_training_samples` (lines 142-145). -/
def setTrainingSamplesRun {V : Type} [DecidableEq V] (ω : V → FuncName → Nat → Nat → ℚ)
    (st : Interventions V) : Except PyErr Unit × Interventions V :=
  match createIntervenedSamplesRun ω st with
  | (.error e, st1) => (.error e, st1)
  | (.ok _, st1) => updateRun st1

/-- The prefix of `train_corrected` up to and including the sanity
assertion `len(self.training_samples) == self.n_interventions`
(lines 222-236); the subsequent freeze/optimize phase is modelled
separately. -/
def trainCorrectedChecks {V : Type} [DecidableEq V] (ω : V → FuncName → Nat → Nat → ℚ)
    (st : Interventions V) : Except PyErr Unit × Interventions V :=
  match setTrainingSamplesRun ω st with
  | (.error e, st1) => (.error e, st1)
  | (.ok _, st1) =>
    if st1.training_samples.length = st1.n_interventions
    then (.ok (), st1)
    else (.error .assertionError, st1)

/-- `_get_parameter_indices` loop (lines 152-158), with the running value
of `start` as accumulator; when the loop exhausts the parents without a
`break`, the local variable `end` was never assigned and the `return
start, end` raises `UnboundLocalError`. -/
def getParameterIndicesAux {V : Type} [DecidableEq V] (sizes : V → Nat) (v : V) :
    List V → Nat → Except PyErr (Nat × Nat)
  | [], _ => .error .unboundLocalError
  | p :: ps, start =>
    if p = v then .ok (start, start + sizes p)
    else getParameterIndicesAux sizes v ps (start + sizes p)

/-- `_get_parameter_indices(vertex)`: `sizes p` is
`self.base_sample[p].size(-1)` and `parents` is
`self.intervened_graph.parents(self.target)`. -/
def getParameterIndices {V : Type} [DecidableEq V] (sizes : V → Nat) (parents : List V)
    (v : V) : Except PyErr (Nat × Nat) :=
  getParameterIndicesAux sizes v parents 0

/-- The sum of the sizes of the parents that precede `v` (its first
occurrence) in the parents list. -/
def startIndex {V : Type} [DecidableEq V] (sizes : V → Nat) (v : V) : List V → Nat
  | [] => 0
  | p :: ps => if p = v then 0 else sizes p + startIndex sizes v ps

/-- One learnable torch parameter: its `requires_grad` flag and its value
(a single rational stands in for the parameter tensor; only the flag is
ever written by the embedded code). -/
structure Param where
  requiresGrad : Bool
  value : ℚ
deriving DecidableEq

/-- One module of the first layer (`model.layers[0][i]`): its `weight`
parameter and its remaining parameters (bias etc.), as enumerated by
`module.parameters()`. -/
structure NNModule where
  weight : Param
  others : List Param
deriving DecidableEq

/-- A learned model: the first layer is a list with one module per input
index (`model.layers[0]`); `restParams` are the parameters of all other
layers, as the remainder of `model.parameters()`. -/
structure Network where
  firstLayer : List NNModule
  restParams : List Param
deriving DecidableEq

/-- `param.requires_grad = False`. -/
def freezeParam (p : Param) : Param := { p with requiresGrad := false }

/-- `param.requires_grad = True`. -/
def unfreezeParam (p : Param) : Param := { p with requiresGrad := true }

/-- Freeze every parameter of one module. -/
def freezeNNModule (m : NNModule) : NNModule :=
  ⟨freezeParam m.weight, m.others.map freezeParam⟩

/-- Lines 171-172: `for param in corrected.parameters(): param.requires_grad
= False`. -/
def freezeAll (net : Network) : Network :=
  ⟨net.firstLayer.map freezeNNModule, net.restParams.map freezeParam⟩

/-- Lines 191-196: at one retrained input index, either all parameters of
the module (when `biases`) or only its weight get `requires_grad = True`. -/
def unfreezeNNModule (biases : Bool) (m : NNModule) : NNModule :=
  if biases then ⟨unfreezeParam m.weight, m.others.map unfreezeParam⟩
  else { m with weight := unfreezeParam m.weight }

/-- The loop `for i in range(start, end)` over `corrected.layers[0]`,
applied as a positional map (the body is an independent point update of
module `i`); `i0` is the index of the list head. -/
def setRangeAux (biases : Bool) (s e : Nat) : Nat → List NNModule → List NNModule
  | _, [] => []
  | i, m :: ms =>
    (if s ≤ i ∧ i < e then unfreezeNNModule biases m else m) :: setRangeAux biases s e (i + 1) ms

/-- Unfreeze the first-layer modules at indices `se.1 ≤ i < se.2`. -/
def unfreezeRange (net : Network) (se : Nat × Nat) (biases : Bool) : Network :=
  { net with firstLayer := setRangeAux biases se.1 se.2 0 net.firstLayer }

/-- One iteration of the loop of lines 185-196: if the parent `v` is a
proxy, unfreeze the range given by `_get_parameter_indices(v)`.  Inside
the loop `v` is always a parent, so `idx v` always succeeds; the `error`
branch is unreachable there. -/
def unfreezeStep {V : Type} [DecidableEq V] (biases : Bool) (proxies : List V)
    (idx : V → Except PyErr (Nat × Nat)) (v : V) (net : Network) : Network :=
  if v ∈ proxies then
    match idx v with
    | .ok se => unfreezeRange net se biases
    | .error _ => net
  else net

/-- The loop of lines 185-196 over the parents of the target. -/
def unfreezeLoop {V : Type} [DecidableEq V] (biases : Bool) (proxies : List V)
    (idx : V → Except PyErr (Nat × Nat)) : List V → Network → Network
  | [], net => net
  | v :: vs, net => unfreezeLoop biases proxies idx vs (unfreezeStep biases proxies idx v net)

/-- The result of `_get_parameter_indices` covers input index `j`. -/
def inSlice (r : Except PyErr (Nat × Nat)) (j : Nat) : Prop :=
  match r with
  | .ok se => se.1 ≤ j ∧ j < se.2
  | .error _ => False

instance : ∀ (r : Except PyErr (Nat × Nat)) (j : Nat), Decidable (inSlice r j)
  | .ok se, j => inferInstanceAs (Decidable (se.1 ≤ j ∧ j < se.2))
  | .error _, _ => isFalse (fun h => h)

/-- The pure value computed by `_copy_and_freeze(model, biases)` (lines
163-197): freeze everything, then unfreeze the first-layer ranges of the
proxy parents of the target. -/
def copyAndFreeze {V : Type} [DecidableEq V] (net : Network) (biases : Bool)
    (parents proxies : List V) (sizes : V → Nat) : Network :=
  unfreezeLoop biases proxies (getParameterIndices sizes parents) parents (freezeAll net)

/-- Index `i` of the model input is consumed by a retrained proxy: some
proxy parent `v` of the target covers `i` with its input slice. -/
def isProxyInputIndex {V : Type} [DecidableEq V] (parents proxies : List V)
    (sizes : V → Nat) (i : Nat) : Prop :=
  ∃ v, v ∈ parents ∧ v ∈ proxies ∧
    startIndex sizes v parents ≤ i ∧ i < startIndex sizes v parents + sizes v

instance {V : Type} [DecidableEq V] (parents proxies : List V) (sizes : V → Nat) (i : Nat) :
    Decidable (isProxyInputIndex parents proxies sizes i) := by
  unfold isProxyInputIndex
  exact List.decidableBEx _ parents

/-- The default module used with positional `getD` reads. -/
def dNNModule : NNModule := ⟨⟨false, 0⟩, []⟩

/-- The default network used with positional `getD` reads of the store. -/
def dNet : Network := ⟨[], []⟩

/-- `copy.deepcopy(model)` on an object store of networks: the store holds
every allocated network, references are indices; a deep copy allocates a
fresh index holding the same value. -/
def deepcopyNet (h : List Network) (r : Nat) : List Network × Nat :=
  (h ++ [h.getD r dNet], h.length)

/-- `_copy_and_freeze` at the store level: deep-copy the model at `r`,
then mutate the copy in place with the freeze/unfreeze logic. -/
def copyAndFreezeRef {V : Type} [DecidableEq V] (h : List Network) (r : Nat) (biases : Bool)
    (parents proxies : List V) (sizes : V → Nat) : List Network × Nat :=
  let c := deepcopyNet h r
  (c.1.set c.2 (copyAndFreeze (c.1.getD c.2 dNet) biases parents proxies sizes), c.2)

/-- The optimizer steps of the training loop: each `opt.step()` mutates
(only) the parameters of the network `corrected` at reference `r`;
`stepFn` abstracts one Adam update of that network. -/
def optimSteps (stepFn : Network → Network) (r : Nat) : Nat → List Network → List Network
  | 0, h => h
  | k + 1, h => optimSteps stepFn r k (h.set r (stepFn (h.getD r dNet)))

/-- The mutation footprint of `train_corrected` on the model store
(lines 240-272): `corrected = self._copy_and_freeze(self.sem.learned
[target], biases)`, then `k` optimizer steps on `corrected`, which is
returned. -/
def trainCorrectedNet {V : Type} [DecidableEq V] (h : List Network) (r : Nat) (biases : Bool)
    (parents proxies : List V) (sizes : V → Nat) (stepFn : Network → Network) (k : Nat) :
    List Network × Nat :=
  let c := copyAndFreezeRef h r biases parents proxies sizes
  (optimSteps stepFn c.2 k c.1, c.2)

/-- `torch.var(xs)` with the default `unbiased=True`: the sample variance
with denominator `n - 1` (exact arithmetic; for `n = 1` the rational
division by zero returns 0 where torch returns NaN). -/
def torchVar (xs : List ℚ) : ℚ :=
  ((xs.map (fun x => (x - xs.sum / xs.length) ^ 2)).sum) / (xs.length - 1)

/-- The column-building loop of one minibatch (lines 259-263): for each
training sample (column `i` of `Ys`), permute the rows of
`combine_variables(parents, sample)` by `p`, slice rows `i1..i2-1`, and
apply the corrected model row-wise.  `combine` abstracts the external
`utils.combine_variables`, giving row `r` of the combined parent tensor
of a sample; `corrected` is the scalar-output model applied to one row. -/
def YsColumns {V : Type} (corrected : (Nat → ℚ) → ℚ) (combine : List V → Sample V → Nat → Nat → ℚ)
    (parents : List V) (samples : List (Sample V)) (p : Nat → Nat) (i1 i2 : Nat) :
    List (List ℚ) :=
  samples.map (fun s => (List.range (i2 - i1)).map (fun b => corrected (combine parents s (p (i1 + b)))))

/-- The minibatch loss as the code computes it (line 265):
`torch.sum(torch.var(Ys, dim=1))`, where row `b` of `Ys` collects entry
`b` of every column. -/
def minibatchLoss {V : Type} (corrected : (Nat → ℚ) → ℚ)
    (combine : List V → Sample V → Nat → Nat → ℚ) (parents : List V)
    (samples : List (Sample V)) (p : Nat → Nat) (i1 i2 : Nat) : ℚ :=
  ((List.range (i2 - i1)).map
    (fun b => torchVar ((YsColumns corrected combine parents samples p i1 i2).map
      (fun col => col.getD b 0)))).sum

/-- The loss as the specification states it: the sum over the rows of the
batch of the variance, across the intervened training samples, of the
corrected model's outputs on the permuted parent inputs of that row. -/
def rowwiseVarianceLoss {V : Type} (corrected : (Nat → ℚ) → ℚ)
    (combine : List V → Sample V → Nat → Nat → ℚ) (parents : List V)
    (samples : List (Sample V)) (p : Nat → Nat) (i1 i2 : Nat) : ℚ :=
  ((List.range (i2 - i1)).map
    (fun b => torchVar (samples.map (fun s => corrected (combine parents s (p (i1 + b))))))).sum

/-- The number of training samples built by the loops of
`_create_intervened_samples`, when they run to completion. -/
def createdCount {V : Type} [DecidableEq V] (base : Sample V) (n : Nat)
    (ω : V → FuncName → Nat → Nat → ℚ) (spec : InterventionSpec V) : Option Nat :=
  match createIntervenedSamples base n ω spec with
  | .ok l => some l.length
  | .error _ => none

/-! ### Concrete instances used by counterexamples and witnesses -/

/-- A base sample over `Nat` vertices: every vertex holds a `(4, 1)`
tensor of zeros. -/
def exBase : Sample Nat := fun _ => ⟨4, 1, fun _ _ => 0⟩

/-- A zero noise stream. -/
def exNoise : Nat → FuncName → Nat → Nat → ℚ := fun _ _ _ _ => 0

/-- An `SEM` collaborator for concrete runs: every vertex has the target
`9` as leaf and descendant; prediction is the identity. -/
def exSem : SEM Nat :=
  { leafs := [9]
    descendants := fun _ => [9]
    getIntervenedGraph := fun ps => ⟨ps, ps ++ [9], fun _ => ps⟩
    predictFromSample := fun s _ => s }

/-- The two-proxy intervention spec of the C1 counterexample: proxy `1`
has two parameter tuples, proxy `2` has three (the shape of the class
docstring's own example). -/
def exSpec2 : InterventionSpec Nat :=
  [(1, [(.randn, [[0, 1], [0, 1]])]),
   (2, [(.randn, [[0, 1], [0, 1], [0, 1]])])]

/-! ### Theorems -/

/-- Helper: inside the parents list, `_get_parameter_indices` finds the
first occurrence of `v` and returns the accumulated start offset and that
offset plus the size of `v`. -/
theorem getParameterIndicesAux_mem {V : Type} [DecidableEq V] (sizes : V → Nat) (v : V) :
    ∀ (L : List V) (acc : Nat), v ∈ L →
      getParameterIndicesAux sizes v L acc =
        .ok (acc + startIndex sizes v L, acc + startIndex sizes v L + sizes v) := by
  intro L
  induction L with
  | nil => intro acc h; cases h
  | cons p ps ih =>
    intro acc h
    by_cases hp : p = v
    · subst hp
      simp [getParameterIndicesAux, startIndex]
    · have hv : v ∈ ps := by
        rcases List.mem_cons.mp h with h1 | h1
        · exact absurd h1.symm hp
        · exact h1
      simp only [getParameterIndicesAux, startIndex, if_neg hp]
      rw [ih (acc + sizes p) hv]
      congr 1
      simp only [Prod.mk.injEq]
      omega

/-- Helper: when `v` does not occur in the list, the loop of
`_get_parameter_indices` exhausts it without assigning `end`. -/
theorem getParameterIndicesAux_not_mem {V : Type} [DecidableEq V] (sizes : V → Nat) (v : V) :
    ∀ (L : List V) (acc : Nat), v ∉ L →
      getParameterIndicesAux sizes v L acc = .error .unboundLocalError := by
  intro L
  induction L with
  | nil => intro acc _; rfl
  | cons p ps ih =>
    intro acc h
    have hp : ¬ p = v := fun hpv => h (hpv ▸ List.mem_cons_self p ps)
    have hv : v ∉ ps := fun hv => h (List.mem_cons_of_mem p hv)
    simp only [getParameterIndicesAux, if_neg hp]
    exact ih _ hv

/-- Claim C7: for a vertex `v` occurring in the parents of the target,
`_get_parameter_indices(v)` returns `(start, end)` where `start` is the
sum of the last-dimension sizes of the base-sample tensors of the parents
preceding `v` in the parents list and `end` is `start` plus the size of
`v`'s tensor. -/
theorem C7_getParameterIndices_of_parent {V : Type} [DecidableEq V] (sizes : V → Nat)
    (parents : List V) (v : V) (h : v ∈ parents) :
    getParameterIndices sizes parents v =
      .ok (startIndex sizes v parents, startIndex sizes v parents + sizes v) := by
  have := getParameterIndicesAux_mem sizes v parents 0 h
  simpa [getParameterIndices] using this

/-- Witness for C7 at a concrete input: parents `[0, 1, 2]` with sizes
`1, 2, 3` and vertex `1` give the slice `(1, 3)`. -/
theorem C7_witness :
    (1 ∈ [0, 1, 2]) ∧
      getParameterIndices (fun n => n + 1) [0, 1, 2] 1 =
        .ok (startIndex (fun n => n + 1) 1 [0, 1, 2],
          startIndex (fun n => n + 1) 1 [0, 1, 2] + (1 + 1)) :=
  ⟨by decide, C7_getParameterIndices_of_parent (fun n => n + 1) [0, 1, 2] 1 (by decide)⟩

/-- Claim C10: for a vertex `v` that does not occur in the parents of the
target, `_get_parameter_indices(v)` raises `UnboundLocalError`, because
its loop never assigns the local variable `end` before the return. -/
theorem C10_getParameterIndices_not_parent {V : Type} [DecidableEq V] (sizes : V → Nat)
    (parents : List V) (v : V) (h : v ∉ parents) :
    getParameterIndices sizes parents v = .error .unboundLocalError :=
  getParameterIndicesAux_not_mem sizes v parents 0 h

/-- Witness for C10 at a concrete input: vertex `5` is not a parent. -/
theorem C10_witness :
    (5 ∉ [0, 1, 2]) ∧
      getParameterIndices (fun n => n + 1) [0, 1, 2] 5 = .error .unboundLocalError :=
  ⟨by decide, C10_getParameterIndices_not_parent (fun n => n + 1) [0, 1, 2] 5 (by decide)⟩

/-- Claim C2: whatever `verbose` argument `__init__` receives, it never
assigns `self.verbose`; `_create_intervened_samples` reads `self.verbose`
unconditionally right after resetting `self.training_samples`, so
`train_corrected` raises `AttributeError` before any training sample is
generated. -/
theorem C2_train_corrected_attributeError {V : Type} [DecidableEq V] (sem : SEM V)
    (base : Sample V) (firstKey : V) (spec : InterventionSpec V) (target : V) (verbose : Int)
    (ω : V → FuncName → Nat → Nat → ℚ) :
    (initState sem base firstKey spec target verbose).verbose = none ∧
      (createIntervenedSamplesRun ω (initState sem base firstKey spec target verbose)).1 =
        .error .attributeError ∧
      (createIntervenedSamplesRun ω
          (initState sem base firstKey spec target verbose)).2.training_samples = [] ∧
      (trainCorrectedChecks ω (initState sem base firstKey spec target verbose)).1 =
        .error .attributeError :=
  ⟨rfl, rfl, rfl, rfl⟩

/-- Claim C6: `_update` recomputes, with `mutate=True` and in topological
order, exactly the vertices of the intervened graph's topological sort
that are neither roots of the intervened graph nor the target; roots (in
particular the intervened proxies) and the target are never recomputed,
and every training sample is passed to `sem.predict_from_sample` with
that update list. -/
theorem C6_update_exactly_nonroot_nontarget {V : Type} [DecidableEq V] :
    (∀ (g : Graph V) (target : V),
      (∀ v, v ∈ updateList g target ↔ v ∈ g.topologicalSort ∧ v ∉ g.roots ∧ v ≠ target) ∧
      List.Sublist (updateList g target) g.topologicalSort ∧
      (∀ r ∈ g.roots, r ∉ updateList g target) ∧ target ∉ updateList g target) ∧
    (∀ (st : Interventions V) (k : Int),
      updateRun { st with verbose := some k } =
        (.ok (), { st with verbose := some k, training_samples := st.training_samples.map (fun s => st.sem.predictFromSample s (updateList st.intervened_graph st.target)) })) := by
  constructor
  · intro g target
    have hmem : ∀ v, v ∈ updateList g target ↔
        v ∈ g.topologicalSort ∧ v ∉ g.roots ∧ v ≠ target := by
      intro v
      simp only [updateList, List.mem_filter, decide_eq_true_eq, List.mem_append,
        List.mem_singleton]
      tauto
    refine ⟨hmem, List.filter_sublist _, ?_, ?_⟩
    · intro r hr hmem2
      exact ((hmem r).mp hmem2).2.1 hr
    · intro hmem2
      exact ((hmem target).mp hmem2).2.2 rfl
  · intro st k
    rfl


/-- Helper: the proxy loop of `_check_input` succeeds exactly when the
target is a descendant of every proxy. -/
theorem checkProxiesE_ok_iff {V : Type} [DecidableEq V] (sem : SEM V) (target : V)
    (L : List V) :
    checkProxiesE sem target L = .ok () ↔ ∀ p ∈ L, target ∈ sem.descendants p := by
  induction L with
  | nil => simp [checkProxiesE]
  | cons p ps ih =>
    by_cases h : target ∈ sem.descendants p
    · simp [checkProxiesE, assertE, h, ih]
    · simp [checkProxiesE, assertE, h]

/-- Helper: the proxy loop either succeeds or raises `AssertionError`. -/
theorem checkProxiesE_dichotomy {V : Type} [DecidableEq V] (sem : SEM V) (target : V)
    (L : List V) :
    checkProxiesE sem target L = .ok () ∨ checkProxiesE sem target L = .error .assertionError := by
  induction L with
  | nil => exact Or.inl rfl
  | cons p ps ih =>
    by_cases h : target ∈ sem.descendants p
    · simpa [checkProxiesE, assertE, h] using ih
    · simp [checkProxiesE, assertE, h]

/-- Helper: `_check_input` succeeds exactly when all three input checks
hold. -/
theorem checkInputE_ok_iff {V : Type} [DecidableEq V] (st : Interventions V) :
    checkInputE st = .ok () ↔
      (st.target ∈ st.sem.leafs ∧ (st.base_sample st.target).cols = 1 ∧
        ∀ p ∈ st.proxies, st.target ∈ st.sem.descendants p) := by
  by_cases h1 : st.target ∈ st.sem.leafs
  · by_cases h2 : (st.base_sample st.target).cols = 1
    · simp [checkInputE, assertE, h1, h2, checkProxiesE_ok_iff]
    · simp [checkInputE, assertE, h1, h2]
  · simp [checkInputE, assertE, h1]

/-- Helper: `_check_input` either succeeds or raises `AssertionError`. -/
theorem checkInputE_dichotomy {V : Type} [DecidableEq V] (st : Interventions V) :
    checkInputE st = .ok () ∨ checkInputE st = .error .assertionError := by
  by_cases h1 : st.target ∈ st.sem.leafs
  · by_cases h2 : (st.base_sample st.target).cols = 1
    · simpa [checkInputE, assertE, h1, h2] using checkProxiesE_dichotomy st.sem st.target st.proxies
    · simp [checkInputE, assertE, h1, h2]
  · simp [checkInputE, assertE, h1]

/-- Claim C5: constructing `Interventions` raises `AssertionError` exactly
when one of the three `_check_input` assertions fails (target not a leaf,
multidimensional target tensor, or some proxy without the target among
its descendants), and succeeds past validation otherwise. -/
theorem C5_construction_assertion_iff {V : Type} [DecidableEq V] (sem : SEM V)
    (base : Sample V) (firstKey : V) (spec : InterventionSpec V) (target : V)
    (verbose : Int) :
    (initE sem base firstKey spec target verbose =
        .ok (initState sem base firstKey spec target verbose) ↔
      (target ∈ sem.leafs ∧ (base target).cols = 1 ∧
        ∀ p ∈ spec.map Prod.fst, target ∈ sem.descendants p)) ∧
    (initE sem base firstKey spec target verbose = .error .assertionError ↔
      ¬ (target ∈ sem.leafs ∧ (base target).cols = 1 ∧
        ∀ p ∈ spec.map Prod.fst, target ∈ sem.descendants p)) := by
  have hiff := checkInputE_ok_iff (initState sem base firstKey spec target verbose)
  rcases checkInputE_dichotomy (initState sem base firstKey spec target verbose) with h | h
  · have hC := hiff.mp h
    constructor
    · simp only [initE, h]
      exact iff_of_true trivial hC
    · simp only [initE, h]
      constructor
      · intro hbad
        cases hbad
      · intro hbad
        exact absurd hC hbad
  · have hC : ¬ (target ∈ sem.leafs ∧ (base target).cols = 1 ∧
        ∀ p ∈ spec.map Prod.fst, target ∈ sem.descendants p) := by
      intro hc
      rw [hiff.mpr hc] at h
      cases h
    constructor
    · simp only [initE, h]
      constructor
      · intro hbad
        cases hbad
      · intro hbad
        exact absurd hbad hC
    · simp only [initE, h]
      exact iff_of_true trivial hC

/-- Claim C4: in one minibatch, the loss `torch.sum(torch.var(Ys, dim=1))`
computed from the column-by-column construction of `Ys` equals the sum
over the batch rows of the variance, across the intervened training
samples, of the corrected model's outputs on that row's permuted parent
inputs — every column indexes the same permuted rows. -/
theorem C4_minibatch_loss_is_rowwise_variance {V : Type} (corrected : (Nat → ℚ) → ℚ)
    (combine : List V → Sample V → Nat → Nat → ℚ) (parents : List V)
    (samples : List (Sample V)) (p : Nat → Nat) (i1 i2 : Nat) :
    minibatchLoss corrected combine parents samples p i1 i2 =
      rowwiseVarianceLoss corrected combine parents samples p i1 i2 := by
  unfold minibatchLoss rowwiseVarianceLoss YsColumns
  congr 1
  apply List.map_congr_left
  intro b hb
  have hb' : b < i2 - i1 := List.mem_range.mp hb
  rw [List.map_map]
  congr 1
  apply List.map_congr_left
  intro s _
  simp [Function.comp, List.getD_eq_getElem?_getD, List.getElem?_map, List.getElem?_range, hb']

/-- Claim C1 (counterexample to the claimed invariant): for the two-proxy
spec with 2 and 3 parameter tuples, construction succeeds,
`_set_n_interventions` computes the product 2 * 3 = 6, but
`_create_intervened_samples` appends 2 + 3 = 5 samples, so the sanity
assertion of `train_corrected` raises `AssertionError` (evaluated here
with a readable `verbose`, independently of the C2 attribute bug). -/
theorem C1_product_vs_sum_mismatch :
    setNInterventions exSpec2 = 6 ∧
    createdCount exBase 4 exNoise exSpec2 = some 5 ∧
    initE exSem exBase 1 exSpec2 9 0 = .ok (initState exSem exBase 1 exSpec2 9 0) ∧
    (trainCorrectedChecks exNoise
        { initState exSem exBase 1 exSpec2 9 0 with verbose := some 0 }).1 =
      .error .assertionError :=
  ⟨rfl, rfl, rfl, rfl⟩

/-- Helper: positional `getD` read below the length is a `getElem` and
commutes with `map`. -/
theorem getD_map_lt {α β : Type} (f : α → β) (l : List α) (j : Nat) (h : j < l.length)
    (d : β) (d' : α) : (l.map f).getD j d = f (l.getD j d') := by
  rw [List.getD_eq_getElem (l.map f) d (by simpa using h), List.getD_eq_getElem l d' h]
  simp

/-- Helper: `getD` through `List.set` at a different index. -/
theorem getD_set_ne {α : Type} (l : List α) (i j : Nat) (a d : α) (h : i ≠ j) :
    (l.set i a).getD j d = l.getD j d := by
  simp [List.getD_eq_getElem?_getD, List.getElem?_set_ne h]

/-- Helper: `getD` through `List.set` at the written index. -/
theorem getD_set_self {α : Type} (l : List α) (i : Nat) (a d : α) (h : i < l.length) :
    (l.set i a).getD i d = a := by
  simp [List.getD_eq_getElem?_getD, List.getElem?_set_self, h]

/-- Helper: the range loop keeps the number of first-layer modules. -/
theorem setRangeAux_length (b : Bool) (s e : Nat) :
    ∀ (L : List NNModule) (i0 : Nat), (setRangeAux b s e i0 L).length = L.length := by
  intro L
  induction L with
  | nil => intro i0; rfl
  | cons m ms ih => intro i0; simp [setRangeAux, ih]

/-- Helper: pointwise effect of the range loop on module `i0 + j`. -/
theorem setRangeAux_getD (b : Bool) (s e : Nat) :
    ∀ (L : List NNModule) (i0 j : Nat), j < L.length →
      (setRangeAux b s e i0 L).getD j dNNModule =
        if s ≤ i0 + j ∧ i0 + j < e then unfreezeNNModule b (L.getD j dNNModule)
        else L.getD j dNNModule := by
  intro L
  induction L with
  | nil => intro i0 j h; cases h
  | cons m ms ih =>
    intro i0 j h
    cases j with
    | zero => simp [setRangeAux, List.getD]
    | succ j =>
      have hj : j < ms.length := by simpa using h
      have heq : i0 + 1 + j = i0 + (j + 1) := by omega
      simpa [setRangeAux, List.getD_cons_succ, heq] using ih (i0 + 1) j hj

/-- Helper: one loop iteration never touches the other layers. -/
theorem unfreezeStep_restParams {V : Type} [DecidableEq V] (b : Bool) (proxies : List V)
    (idx : V → Except PyErr (Nat × Nat)) (v : V) (net : Network) :
    (unfreezeStep b proxies idx v net).restParams = net.restParams := by
  unfold unfreezeStep
  by_cases hv : v ∈ proxies
  · simp only [if_pos hv]
    cases idx v with
    | ok se => rfl
    | error e => rfl
  · simp [hv]

/-- Helper: one loop iteration keeps the first-layer length. -/
theorem unfreezeStep_length {V : Type} [DecidableEq V] (b : Bool) (proxies : List V)
    (idx : V → Except PyErr (Nat × Nat)) (v : V) (net : Network) :
    (unfreezeStep b proxies idx v net).firstLayer.length = net.firstLayer.length := by
  unfold unfreezeStep
  by_cases hv : v ∈ proxies
  · simp only [if_pos hv]
    cases idx v with
    | ok se => simp [unfreezeRange, setRangeAux_length]
    | error e => rfl
  · simp [hv]

/-- Helper: pointwise effect of one loop iteration on module `j`. -/
theorem unfreezeStep_getD {V : Type} [DecidableEq V] (b : Bool) (proxies : List V)
    (idx : V → Except PyErr (Nat × Nat)) (v : V) (net : Network) (j : Nat)
    (hj : j < net.firstLayer.length) :
    (unfreezeStep b proxies idx v net).firstLayer.getD j dNNModule =
      if v ∈ proxies ∧ inSlice (idx v) j
      then unfreezeNNModule b (net.firstLayer.getD j dNNModule)
      else net.firstLayer.getD j dNNModule := by
  unfold unfreezeStep
  by_cases hv : v ∈ proxies
  · simp only [if_pos hv]
    cases hidx : idx v with
    | ok se =>
      have := setRangeAux_getD b se.1 se.2 net.firstLayer 0 j hj
      simp only [Nat.zero_add] at this
      simpa [unfreezeRange, inSlice, hv] using this
    | error e => simp [inSlice, hv]
  · simp [hv]

/-- Helper: unfreezing a module twice is the same as once. -/
theorem unfreezeNNModule_idem (b : Bool) (m : NNModule) :
    unfreezeNNModule b (unfreezeNNModule b m) = unfreezeNNModule b m := by
  cases b with
  | false => rfl
  | true =>
    simp only [unfreezeNNModule, if_pos, List.map_map]
    refine congrArg (NNModule.mk _) ?_
    apply List.map_congr_left
    intro p _
    rfl

/-- Helper: the loop never touches the other layers. -/
theorem unfreezeLoop_restParams {V : Type} [DecidableEq V] (b : Bool) (proxies : List V)
    (idx : V → Except PyErr (Nat × Nat)) :
    ∀ (L : List V) (net : Network),
      (unfreezeLoop b proxies idx L net).restParams = net.restParams := by
  intro L
  induction L with
  | nil => intro net; rfl
  | cons v vs ih =>
    intro net
    simp only [unfreezeLoop]
    rw [ih, unfreezeStep_restParams]

/-- Helper: the loop keeps the first-layer length. -/
theorem unfreezeLoop_length {V : Type} [DecidableEq V] (b : Bool) (proxies : List V)
    (idx : V → Except PyErr (Nat × Nat)) :
    ∀ (L : List V) (net : Network),
      (unfreezeLoop b proxies idx L net).firstLayer.length = net.firstLayer.length := by
  intro L
  induction L with
  | nil => intro net; rfl
  | cons v vs ih =>
    intro net
    simp only [unfreezeLoop]
    rw [ih, unfreezeStep_length]

/-- Helper: pointwise characterization of the whole loop: module `j` is
unfrozen exactly when some proxy in the list covers `j` with its slice. -/
theorem unfreezeLoop_getD {V : Type} [DecidableEq V] (b : Bool) (proxies : List V)
    (idx : V → Except PyErr (Nat × Nat)) :
    ∀ (L : List V) (net : Network) (j : Nat), j < net.firstLayer.length →
      (unfreezeLoop b proxies idx L net).firstLayer.getD j dNNModule =
        if ∃ v, v ∈ L ∧ v ∈ proxies ∧ inSlice (idx v) j
        then unfreezeNNModule b (net.firstLayer.getD j dNNModule)
        else net.firstLayer.getD j dNNModule := by
  intro L
  induction L with
  | nil =>
    intro net j hj
    simp [unfreezeLoop]
  | cons v vs ih =>
    intro net j hj
    have hstep := unfreezeStep_getD b proxies idx v net j hj
    have hlen : j < (unfreezeStep b proxies idx v net).firstLayer.length := by
      rw [unfreezeStep_length]; exact hj
    have hrec := ih (unfreezeStep b proxies idx v net) j hlen
    simp only [unfreezeLoop]
    rw [hrec, hstep]
    by_cases hvs : ∃ w, w ∈ vs ∧ w ∈ proxies ∧ inSlice (idx w) j
    · have hcons : ∃ w, w ∈ v :: vs ∧ w ∈ proxies ∧ inSlice (idx w) j := by
        obtain ⟨w, hw, h1, h2⟩ := hvs
        exact ⟨w, List.mem_cons_of_mem v hw, h1, h2⟩
      rw [if_pos hvs, if_pos hcons]
      by_cases hv : v ∈ proxies ∧ inSlice (idx v) j
      · rw [if_pos hv, unfreezeNNModule_idem]
      · rw [if_neg hv]
    · rw [if_neg hvs]
      by_cases hv : v ∈ proxies ∧ inSlice (idx v) j
      · have hcons : ∃ w, w ∈ v :: vs ∧ w ∈ proxies ∧ inSlice (idx w) j :=
          ⟨v, List.mem_cons_self v vs, hv.1, hv.2⟩
        rw [if_pos hv, if_pos hcons]
      · have hcons : ¬ ∃ w, w ∈ v :: vs ∧ w ∈ proxies ∧ inSlice (idx w) j := by
          rintro ⟨w, hw, h1, h2⟩
          rcases List.mem_cons.mp hw with hw1 | hw1
          · exact hv (hw1 ▸ ⟨h1, h2⟩)
          · exact hvs ⟨w, hw1, h1, h2⟩
        rw [if_neg hv, if_neg hcons]

/-- Helper: over the parents list, the loop's slice condition at `j` is
exactly `isProxyInputIndex`. -/
theorem exists_inSlice_iff {V : Type} [DecidableEq V] (parents proxies : List V)
    (sizes : V → Nat) (j : Nat) :
    (∃ v, v ∈ parents ∧ v ∈ proxies ∧ inSlice (getParameterIndices sizes parents v) j) ↔
      isProxyInputIndex parents proxies sizes j := by
  unfold isProxyInputIndex
  constructor
  · rintro ⟨v, hp, hx, hs⟩
    have hidx := getParameterIndicesAux_mem sizes v parents 0 hp
    rw [show getParameterIndices sizes parents v = getParameterIndicesAux sizes v parents 0
      from rfl, hidx] at hs
    simp only [inSlice, Nat.zero_add] at hs
    exact ⟨v, hp, hx, hs.1, hs.2⟩
  · rintro ⟨v, hp, hx, h1, h2⟩
    refine ⟨v, hp, hx, ?_⟩
    have hidx := getParameterIndicesAux_mem sizes v parents 0 hp
    rw [show getParameterIndices sizes parents v = getParameterIndicesAux sizes v parents 0
      from rfl, hidx]
    simp only [inSlice, Nat.zero_add]
    exact ⟨h1, h2⟩

/-- Claim C3: `_copy_and_freeze(model, biases)` returns a network with
`requires_grad = False` on every parameter, except that at the first-layer
input indices covered by the slice of a proxy parent of the target the
weight (and, when `biases` is true, every parameter of those modules) has
`requires_grad = True`; all other layers and all non-proxy input positions
end up frozen.  The hypothesis says the first layer has a module for every
input index, as the architecture guarantees. -/
theorem C3_copyAndFreeze_freezes_all_but_proxy_slices {V : Type} [DecidableEq V]
    (net : Network) (biases : Bool) (parents proxies : List V) (sizes : V → Nat)
    (hArch : (parents.map sizes).sum ≤ net.firstLayer.length) :
    (copyAndFreeze net biases parents proxies sizes).restParams =
        net.restParams.map freezeParam ∧
      (copyAndFreeze net biases parents proxies sizes).firstLayer.length =
        net.firstLayer.length ∧
      ∀ j, j < net.firstLayer.length →
        (copyAndFreeze net biases parents proxies sizes).firstLayer.getD j dNNModule =
          if isProxyInputIndex parents proxies sizes j
          then unfreezeNNModule biases (freezeNNModule (net.firstLayer.getD j dNNModule))
          else freezeNNModule (net.firstLayer.getD j dNNModule) := by
  refine ⟨?_, ?_, ?_⟩
  · rw [copyAndFreeze, unfreezeLoop_restParams]
    rfl
  · rw [copyAndFreeze, unfreezeLoop_length]
    simp [freezeAll]
  · intro j hj
    have hjf : j < (freezeAll net).firstLayer.length := by simpa [freezeAll] using hj
    rw [copyAndFreeze, unfreezeLoop_getD _ _ _ _ _ j hjf]
    rw [show (freezeAll net).firstLayer = net.firstLayer.map freezeNNModule from rfl]
    rw [getD_map_lt freezeNNModule net.firstLayer j hj dNNModule dNNModule]
    by_cases hc : isProxyInputIndex parents proxies sizes j
    · rw [if_pos ((exists_inSlice_iff parents proxies sizes j).mpr hc), if_pos hc]
    · rw [if_neg (fun hx => hc ((exists_inSlice_iff parents proxies sizes j).mp hx)),
        if_neg hc]

/-- Witness for C3 at a concrete input: three input indices of sizes 1
and 2 for parents `[0, 1]`, proxy `1`, biases off — modules 1 and 2 keep
a trainable weight, everything else is frozen. -/
theorem C3_witness :
    ((([0, 1] : List Nat).map (fun v => v + 1)).sum ≤
        (Network.mk [⟨⟨true, 1⟩, [⟨true, 4⟩]⟩, ⟨⟨true, 2⟩, [⟨true, 5⟩]⟩,
          ⟨⟨true, 3⟩, [⟨true, 6⟩]⟩] [⟨true, 7⟩]).firstLayer.length) ∧
      (copyAndFreeze (Network.mk [⟨⟨true, 1⟩, [⟨true, 4⟩]⟩, ⟨⟨true, 2⟩, [⟨true, 5⟩]⟩,
            ⟨⟨true, 3⟩, [⟨true, 6⟩]⟩] [⟨true, 7⟩]) false [0, 1] [1]
          (fun v => v + 1)).restParams =
        (Network.mk [⟨⟨true, 1⟩, [⟨true, 4⟩]⟩, ⟨⟨true, 2⟩, [⟨true, 5⟩]⟩,
          ⟨⟨true, 3⟩, [⟨true, 6⟩]⟩] [⟨true, 7⟩]).restParams.map freezeParam ∧
      (copyAndFreeze (Network.mk [⟨⟨true, 1⟩, [⟨true, 4⟩]⟩, ⟨⟨true, 2⟩, [⟨true, 5⟩]⟩,
            ⟨⟨true, 3⟩, [⟨true, 6⟩]⟩] [⟨true, 7⟩]) false [0, 1] [1]
          (fun v => v + 1)).firstLayer.length =
        (Network.mk [⟨⟨true, 1⟩, [⟨true, 4⟩]⟩, ⟨⟨true, 2⟩, [⟨true, 5⟩]⟩,
          ⟨⟨true, 3⟩, [⟨true, 6⟩]⟩] [⟨true, 7⟩]).firstLayer.length ∧
      ∀ j, j < (Network.mk [⟨⟨true, 1⟩, [⟨true, 4⟩]⟩, ⟨⟨true, 2⟩, [⟨true, 5⟩]⟩,
          ⟨⟨true, 3⟩, [⟨true, 6⟩]⟩] [⟨true, 7⟩]).firstLayer.length →
        (copyAndFreeze (Network.mk [⟨⟨true, 1⟩, [⟨true, 4⟩]⟩, ⟨⟨true, 2⟩, [⟨true, 5⟩]⟩,
              ⟨⟨true, 3⟩, [⟨true, 6⟩]⟩] [⟨true, 7⟩]) false [0, 1] [1]
            (fun v => v + 1)).firstLayer.getD j dNNModule =
          if isProxyInputIndex [0, 1] [1] (fun v => v + 1) j
          then unfreezeNNModule false (freezeNNModule
            ((Network.mk [⟨⟨true, 1⟩, [⟨true, 4⟩]⟩, ⟨⟨true, 2⟩, [⟨true, 5⟩]⟩,
              ⟨⟨true, 3⟩, [⟨true, 6⟩]⟩] [⟨true, 7⟩]).firstLayer.getD j dNNModule))
          else freezeNNModule ((Network.mk [⟨⟨true, 1⟩, [⟨true, 4⟩]⟩,
            ⟨⟨true, 2⟩, [⟨true, 5⟩]⟩,
            ⟨⟨true, 3⟩, [⟨true, 6⟩]⟩] [⟨true, 7⟩]).firstLayer.getD j dNNModule) :=
  ⟨by decide,
    C3_copyAndFreeze_freezes_all_but_proxy_slices
      (Network.mk [⟨⟨true, 1⟩, [⟨true, 4⟩]⟩, ⟨⟨true, 2⟩, [⟨true, 5⟩]⟩,
        ⟨⟨true, 3⟩, [⟨true, 6⟩]⟩] [⟨true, 7⟩]) false [0, 1] [1] (fun v => v + 1)
      (by decide)⟩

/-- Helper: shape of every tensor built by a known function: `(n, 1)`. -/
theorem knownFunctions_shape (n : Nat) (ω : Nat → ℚ) (f : FuncName) (ps : List ℚ)
    (t : Tensor) (h : knownFunctions n ω f ps = .ok t) : t.rows = n ∧ t.cols = 1 := by
  unfold knownFunctions at h
  split at h
  all_goals first
    | (injection h with h2; subst h2; exact ⟨rfl, rfl⟩)
    | simp at h

/-- Helper: every sample built by the innermost loop is the base sample
with one parameter tuple's fresh tensor at the proxy. -/
theorem samplesForTuples_mem {V : Type} [DecidableEq V] (base : Sample V) (n : Nat)
    (proxy : V) (f : FuncName) (ω : Nat → Nat → ℚ) :
    ∀ (pss : List (List ℚ)) (j0 : Nat) (l : List (Sample V)),
      samplesForTuples base n proxy f ω j0 pss = .ok l →
      ∀ s ∈ l, ∃ ps, ps ∈ pss ∧ ∃ j t, knownFunctions n (ω j) f ps = .ok t ∧
        s = Function.update base proxy t := by
  intro pss
  induction pss with
  | nil =>
    intro j0 l h s hs
    simp only [samplesForTuples] at h
    injection h with h2
    subst h2
    cases hs
  | cons ps rest ih =>
    intro j0 l h s hs
    simp only [samplesForTuples] at h
    cases hk : knownFunctions n (ω j0) f ps with
    | error e => rw [hk] at h; cases h
    | ok t =>
      rw [hk] at h
      cases hr : samplesForTuples base n proxy f ω (j0 + 1) rest with
      | error e => rw [hr] at h; cases h
      | ok tail =>
        rw [hr] at h
        injection h with h2
        subst h2
        rcases List.mem_cons.mp hs with hs1 | hs1
        · exact ⟨ps, List.mem_cons_self ps rest, j0, t, hk, hs1⟩
        · obtain ⟨ps', hmem, j, t', hk', hs'⟩ := ih (j0 + 1) tail hr s hs1
          exact ⟨ps', List.mem_cons_of_mem ps hmem, j, t', hk', hs'⟩

/-- Helper: every sample built by the per-proxy loop comes from one of
its functions and one of that function's parameter tuples. -/
theorem samplesForProxy_mem {V : Type} [DecidableEq V] (base : Sample V) (n : Nat)
    (proxy : V) (ω : FuncName → Nat → Nat → ℚ) :
    ∀ (funcs : List (FuncName × List (List ℚ))) (l : List (Sample V)),
      samplesForProxy base n proxy ω funcs = .ok l →
      ∀ s ∈ l, ∃ f pss, (f, pss) ∈ funcs ∧ ∃ ps, ps ∈ pss ∧
        ∃ j t, knownFunctions n (ω f j) f ps = .ok t ∧
          s = Function.update base proxy t := by
  intro funcs
  induction funcs with
  | nil =>
    intro l h s hs
    simp only [samplesForProxy] at h
    injection h with h2
    subst h2
    cases hs
  | cons fp rest ih =>
    intro l h s hs
    obtain ⟨f, pss⟩ := fp
    simp only [samplesForProxy] at h
    cases h1 : samplesForTuples base n proxy f (ω f) 0 pss with
    | error e => rw [h1] at h; cases h
    | ok s1 =>
      rw [h1] at h
      cases h2 : samplesForProxy base n proxy ω rest with
      | error e => rw [h2] at h; cases h
      | ok s2 =>
        rw [h2] at h
        injection h with h3
        subst h3
        rcases List.mem_append.mp hs with hs1 | hs1
        · obtain ⟨ps, hmem, j, t, hk, hst⟩ :=
            samplesForTuples_mem base n proxy f (ω f) pss 0 s1 h1 s hs1
          exact ⟨f, pss, List.mem_cons_self _ rest, ps, hmem, j, t, hk, hst⟩
        · obtain ⟨f', pss', hmem', rest'⟩ := ih s2 h2 s hs1
          exact ⟨f', pss', List.mem_cons_of_mem _ hmem', rest'⟩

/-- Helper: every sample built by `_create_intervened_samples` comes from
one proxy, one function and one parameter tuple of the spec. -/
theorem createIntervenedSamples_mem {V : Type} [DecidableEq V] (base : Sample V) (n : Nat)
    (ω : V → FuncName → Nat → Nat → ℚ) :
    ∀ (spec : InterventionSpec V) (l : List (Sample V)),
      createIntervenedSamples base n ω spec = .ok l →
      ∀ s ∈ l, ∃ proxy funcs, (proxy, funcs) ∈ spec ∧
        ∃ f pss, (f, pss) ∈ funcs ∧ ∃ ps, ps ∈ pss ∧
          ∃ j t, knownFunctions n (ω proxy f j) f ps = .ok t ∧
            s = Function.update base proxy t := by
  intro spec
  induction spec with
  | nil =>
    intro l h s hs
    simp only [createIntervenedSamples] at h
    injection h with h2
    subst h2
    cases hs
  | cons pf rest ih =>
    intro l h s hs
    obtain ⟨proxy, funcs⟩ := pf
    simp only [createIntervenedSamples] at h
    cases h1 : samplesForProxy base n proxy (ω proxy) funcs with
    | error e => rw [h1] at h; cases h
    | ok s1 =>
      rw [h1] at h
      cases h2 : createIntervenedSamples base n ω rest with
      | error e => rw [h2] at h; cases h
      | ok s2 =>
        rw [h2] at h
        injection h with h3
        subst h3
        rcases List.mem_append.mp hs with hs1 | hs1
        · obtain ⟨f, pss, hmem, tail⟩ :=
            samplesForProxy_mem base n proxy (ω proxy) funcs s1 h1 s hs1
          exact ⟨proxy, funcs, List.mem_cons_self _ rest, f, pss, hmem, tail⟩
        · obtain ⟨proxy', funcs', hmem', tail'⟩ := ih s2 h2 s hs1
          exact ⟨proxy', funcs', List.mem_cons_of_mem _ hmem', tail'⟩

/-- Claim C8: every training sample produced by
`_create_intervened_samples` is the base sample with exactly the
intervened proxy's value replaced by the freshly generated `(n_samples,
1)` tensor of the named known function, all other vertices holding the
base sample's values; and the run never mutates `self.base_sample`. -/
theorem C8_samples_differ_only_at_proxy {V : Type} [DecidableEq V] :
    (∀ (base : Sample V) (n : Nat) (ω : V → FuncName → Nat → Nat → ℚ)
        (spec : InterventionSpec V) (l : List (Sample V)),
      createIntervenedSamples base n ω spec = .ok l →
      ∀ s ∈ l, ∃ proxy funcs f pss ps j t,
        (proxy, funcs) ∈ spec ∧ (f, pss) ∈ funcs ∧ ps ∈ pss ∧
        knownFunctions n (ω proxy f j) f ps = .ok t ∧
        t.rows = n ∧ t.cols = 1 ∧
        s proxy = t ∧ (∀ w, w ≠ proxy → s w = base w)) ∧
    (∀ (ω : V → FuncName → Nat → Nat → ℚ) (st : Interventions V),
      (createIntervenedSamplesRun ω st).2.base_sample = st.base_sample) := by
  constructor
  · intro base n ω spec l h s hs
    obtain ⟨proxy, funcs, h1, f, pss, h2, ps, h3, j, t, hk, hst⟩ :=
      createIntervenedSamples_mem base n ω spec l h s hs
    obtain ⟨hrows, hcols⟩ := knownFunctions_shape n (ω proxy f j) f ps t hk
    refine ⟨proxy, funcs, f, pss, ps, j, t, h1, h2, h3, hk, hrows, hcols, ?_, ?_⟩
    · rw [hst]
      exact Function.update_same proxy t base
    · intro w hw
      rw [hst]
      exact Function.update_noteq hw t base
  · intro ω st
    simp only [createIntervenedSamplesRun]
    cases st.verbose with
    | none => rfl
    | some k =>
      cases createIntervenedSamples st.base_sample st.n_samples ω st.interventions with
      | error e => rfl
      | ok l => rfl

/-- Witness for C8 at a concrete input: the one-proxy spec
`[(1, const [(3)])]` produces exactly the base sample with vertex 1
replaced by the constant tensor. -/
theorem C8_witness :
    ∃ proxy funcs f pss ps j t,
      (proxy, funcs) ∈ ([(1, [(FuncName.const, [[3]])])] : InterventionSpec Nat) ∧
      (f, pss) ∈ funcs ∧ ps ∈ pss ∧
      knownFunctions 4 (exNoise proxy f j) f ps = .ok t ∧
      t.rows = 4 ∧ t.cols = 1 ∧
      Function.update exBase 1 (Tensor.mk 4 1 (fun _ _ => 1 * 3)) proxy = t ∧
      (∀ w, w ≠ proxy →
        Function.update exBase 1 (Tensor.mk 4 1 (fun _ _ => 1 * 3)) w = exBase w) :=
  C8_samples_differ_only_at_proxy.1 exBase 4 exNoise [(1, [(FuncName.const, [[3]])])]
    [Function.update exBase 1 (Tensor.mk 4 1 (fun _ _ => 1 * 3))] rfl
    (Function.update exBase 1 (Tensor.mk 4 1 (fun _ _ => 1 * 3)))
    (List.mem_singleton.mpr rfl)

/-- Helper: the optimizer loop leaves every other store index alone. -/
theorem optimSteps_getD_ne (stepFn : Network → Network) (r : Nat) :
    ∀ (k : Nat) (h : List Network) (j : Nat), j ≠ r →
      (optimSteps stepFn r k h).getD j dNet = h.getD j dNet := by
  intro k
  induction k with
  | zero => intro h j hj; rfl
  | succ k ih =>
    intro h j hj
    simp only [optimSteps]
    rw [ih _ _ hj, getD_set_ne _ _ _ _ _ (Ne.symm hj)]

/-- Helper: the optimizer loop iterates the step function at its index. -/
theorem optimSteps_getD_self (stepFn : Network → Network) (r : Nat) :
    ∀ (k : Nat) (h : List Network), r < h.length →
      (optimSteps stepFn r k h).getD r dNet = stepFn^[k] (h.getD r dNet) := by
  intro k
  induction k with
  | zero => intro h hr; rfl
  | succ k ih =>
    intro h hr
    simp only [optimSteps]
    rw [ih _ (by simpa using hr), getD_set_self _ _ _ _ hr,
      Function.iterate_succ_apply]

/-- Claim C9: `train_corrected` mutates only the deep copy: the returned
reference is fresh, the original learned model (its parameter values and
`requires_grad` flags) is unchanged in the store, and the returned
network is the frozen copy after the optimizer steps. -/
theorem C9_train_corrected_preserves_original {V : Type} [DecidableEq V]
    (h : List Network) (r : Nat) (biases : Bool) (parents proxies : List V)
    (sizes : V → Nat) (stepFn : Network → Network) (k : Nat) (hr : r < h.length) :
    (trainCorrectedNet h r biases parents proxies sizes stepFn k).2 ≠ r ∧
      (trainCorrectedNet h r biases parents proxies sizes stepFn k).1.getD r dNet =
        h.getD r dNet ∧
      (trainCorrectedNet h r biases parents proxies sizes stepFn k).1.getD
          (trainCorrectedNet h r biases parents proxies sizes stepFn k).2 dNet =
        stepFn^[k] (copyAndFreeze (h.getD r dNet) biases parents proxies sizes) := by
  have hcopy : (h ++ [h.getD r dNet]).getD h.length dNet = h.getD r dNet := by
    rw [List.getD_append_right _ _ _ _ (Nat.le_refl _)]
    simp
  have h2 : (trainCorrectedNet h r biases parents proxies sizes stepFn k).2 = h.length := rfl
  refine ⟨?_, ?_, ?_⟩
  · rw [h2]
    exact (Nat.ne_of_lt hr).symm
  · show (optimSteps stepFn h.length k
        ((h ++ [h.getD r dNet]).set h.length
          (copyAndFreeze ((h ++ [h.getD r dNet]).getD h.length dNet)
            biases parents proxies sizes))).getD r dNet = h.getD r dNet
    rw [optimSteps_getD_ne _ _ _ _ _ (Nat.ne_of_lt hr),
      getD_set_ne _ _ _ _ _ ((Nat.ne_of_lt hr).symm)]
    exact List.getD_append _ _ _ _ hr
  · rw [h2]
    show (optimSteps stepFn h.length k
        ((h ++ [h.getD r dNet]).set h.length
          (copyAndFreeze ((h ++ [h.getD r dNet]).getD h.length dNet)
            biases parents proxies sizes))).getD h.length dNet = _
    rw [optimSteps_getD_self _ _ _ _ (by simp),
      getD_set_self _ _ _ _ (by simp), hcopy]

/-- Witness for C9 at a concrete input: a one-network store, the identity
step function and one step. -/
theorem C9_witness :
    (trainCorrectedNet [Network.mk [⟨⟨true, 1⟩, [⟨true, 2⟩]⟩] [⟨true, 3⟩]] 0 true
        [0] [0] (fun _ => 1) id 1).2 ≠ 0 ∧
      (trainCorrectedNet [Network.mk [⟨⟨true, 1⟩, [⟨true, 2⟩]⟩] [⟨true, 3⟩]] 0 true
          [0] [0] (fun _ => 1) id 1).1.getD 0 dNet =
        ([Network.mk [⟨⟨true, 1⟩, [⟨true, 2⟩]⟩] [⟨true, 3⟩]]).getD 0 dNet ∧
      (trainCorrectedNet [Network.mk [⟨⟨true, 1⟩, [⟨true, 2⟩]⟩] [⟨true, 3⟩]] 0 true
          [0] [0] (fun _ => 1) id 1).1.getD
          (trainCorrectedNet [Network.mk [⟨⟨true, 1⟩, [⟨true, 2⟩]⟩] [⟨true, 3⟩]] 0 true
            [0] [0] (fun _ => 1) id 1).2 dNet =
        id^[1] (copyAndFreeze (([Network.mk [⟨⟨true, 1⟩, [⟨true, 2⟩]⟩] [⟨true, 3⟩]]).getD
          0 dNet) true [0] [0] (fun _ => 1)) :=
  C9_train_corrected_preserves_original
    [Network.mk [⟨⟨true, 1⟩, [⟨true, 2⟩]⟩] [⟨true, 3⟩]] 0 true [0] [0]
    (fun _ => 1) id 1 (by decide)

end CausalFairness
